import Mathlib

/-!
Verification of the roster-transfer pipeline of `app.py` (kamijima_transfer_person).

The source is a pandas/streamlit script with three core functions:

* `extract_data_from_pdf_camelot` / `extract_data_from_pdf` — turn PDF tables
  into one dataframe (camelot first, pdfplumber as fallback);
* `transform_extracted_data` — melt the wide roster (one column per job title)
  into a long (課名, 役職, 氏名) table, dropping blank names;
* `track_transfers` — inner-join two long tables on 氏名 and keep rows whose
  課名 differs.

Cells are modelled as `Option String` (`none` is pandas `NaN` / Python `None`);
a dataframe is a list of column labels plus a list of rows (lists of cells,
positionally aligned with the labels).  `st.error` calls are modelled as an
error-message channel next to the returned value; an unhandled Python
exception (the `melt` `KeyError`) is modelled as the absence of a result.
-/

/-- A table cell: `none` models pandas `NaN` / Python `None`. -/
abbrev Cell := Option String

/-- Python `str.strip()`: remove leading and trailing whitespace. -/
def pyStrip (s : String) : String :=
  String.mk (((s.data.dropWhile Char.isWhitespace).reverse.dropWhile Char.isWhitespace).reverse)

/-- `cell.strip() if isinstance(cell, str) else cell`. -/
def stripCell : Cell → Cell
  | some s => some (pyStrip s)
  | none => none

/-- A dataframe with string column labels (the shape fed to
`transform_extracted_data` and `track_transfers`). -/
structure Frame where
  cols : List String
  rows : List (List Cell)
deriving DecidableEq

/-- `pd.DataFrame()`. -/
def emptyFrame : Frame := ⟨[], []⟩

/-- Value of row `row` at the first column labelled `c` (pandas label lookup);
`none` when the label is absent or the row is too short. -/
def lookupRow (cols : List String) (row : List Cell) (c : String) : Cell :=
  (((cols.zip row).find? (fun q => q.1 == c)).map Prod.snd).getD none

/-- Element-wise pandas `!=` on two cells: comparisons involving `NaN` are
`True`, otherwise exact string inequality. -/
def cellNe : Cell → Cell → Bool
  | some x, some y => x != y
  | _, _ => true

/-- `pd.merge` suffixing: a non-key column present on both sides gets the
suffix, all other labels are kept unchanged. -/
def suffixIfOverlap (other : List String) (key sfx c : String) : String :=
  if c ≠ key ∧ c ∈ other then c ++ sfx else c

/-- `pd.merge(l, r, on=key, suffixes=(sl, sr))`: an inner join on `key`
(pairing every left row with every right row carrying an equal key cell),
columns of `l` first (suffixed where overlapping), then the non-key columns
of `r` (suffixed where overlapping). -/
def mergeOn (l r : Frame) (key sl sr : String) : Frame :=
  { cols := l.cols.map (suffixIfOverlap r.cols key sl) ++
      (r.cols.filter (fun c => c != key)).map (suffixIfOverlap l.cols key sr)
  , rows := l.rows.flatMap (fun lp =>
      r.rows.filterMap (fun rp =>
        if lookupRow l.cols lp key = lookupRow r.cols rp key then
          some (lp ++ ((r.cols.zip rp).filter (fun q => q.1 != key)).map Prod.snd)
        else none)) }

/-- Result of `track_transfers`: the dataframe returned by the Python
function, together with the `st.error` message when one was shown. -/
structure TrackOutput where
  errorMsg : Option String
  frame : Frame
deriving DecidableEq

/-- `track_transfers(df_prev, df_curr)` from `app.py`: check 氏名 on both
sides, inner-merge on 氏名 with suffixes `_prev`/`_curr`, check the suffixed
課名 columns, keep rows whose two 課名 cells differ and return the three
columns 氏名, 課名_prev, 課名_curr. -/
def track_transfers (df_prev df_curr : Frame) : TrackOutput :=
  if "氏名" ∈ df_prev.cols ∧ "氏名" ∈ df_curr.cols then
    let df_merged := mergeOn df_prev df_curr "氏名" "_prev" "_curr"
    if "課名_prev" ∈ df_merged.cols ∧ "課名_curr" ∈ df_merged.cols then
      let kept := df_merged.rows.filter (fun row =>
        cellNe (lookupRow df_merged.cols row "課名_prev") (lookupRow df_merged.cols row "課名_curr"))
      ⟨none, ⟨["氏名", "課名_prev", "課名_curr"],
        kept.map (fun row =>
          [lookupRow df_merged.cols row "氏名",
           lookupRow df_merged.cols row "課名_prev",
           lookupRow df_merged.cols row "課名_curr"])⟩⟩
    else ⟨some "課名カラムが不足しています。", emptyFrame⟩
  else ⟨some "氏名カラムが不足しています。", emptyFrame⟩

/-- The fixed vocabulary of title columns (`roles` in `app.py`). -/
def roles : List String :=
  ["部長", "課長・主幹", "課長補佐", "係長・相当職", "職員", "単労職", "会計年度職員", "臨時職員"]

/-- Result of `transform_extracted_data`: `result = none` models the
unhandled pandas `KeyError` raised by `melt` (no dataframe is produced);
`errorMsg` carries the `st.error` message when one was shown. -/
structure TransformOutput where
  errorMsg : Option String
  result : Option Frame
deriving DecidableEq

/-- Rows of `df.melt(id_vars=["課名"], value_vars=roles, var_name="役職",
value_name="氏名")`: one block per title column, one row per source row. -/
def meltRows (df : Frame) : List (List Cell) :=
  roles.flatMap (fun role =>
    df.rows.map (fun row => [lookupRow df.cols row "課名", some role, lookupRow df.cols row role]))

/-- The row filter `df_melt["氏名"].notna() & (df_melt["氏名"].str.strip() != "")`
applied to a melted row (the 氏名 cell sits at index 2). -/
def keepName (row : List Cell) : Bool :=
  match row.getD 2 none with
  | some s => pyStrip s != ""
  | none => false

/-- A cell that the melt filter rejects: missing, empty or all-whitespace. -/
def cellBlank : Cell → Bool
  | some s => pyStrip s == ""
  | none => true

/-- `transform_extracted_data(df)` from `app.py`: missing 課名 shows an
`st.error` and returns an empty dataframe; a missing title column makes
`melt` raise (`result = none`); otherwise melt and drop blank 氏名 cells. -/
def transform_extracted_data (df : Frame) : TransformOutput :=
  if "課名" ∈ df.cols then
    if roles.all (fun role => df.cols.contains role) then
      ⟨none, some ⟨["課名", "役職", "氏名"], (meltRows df).filter keepName⟩⟩
    else ⟨none, none⟩
  else ⟨some "抽出されたデータに『課名』カラムが見つかりませんでした。抽出処理を確認してください。", some emptyFrame⟩

/-- A `page.extract_table()` result: rows of optional strings. -/
abbrev PTable := List (List Cell)

/-- A dataframe whose column labels are raw cells (the shape produced by the
extraction stage, whose header row may contain arbitrary cells). -/
structure RawFrame where
  cols : List Cell
  rows : List (List Cell)
deriving DecidableEq

/-- `pd.DataFrame()` at the raw stage. -/
def emptyRawFrame : RawFrame := ⟨[], []⟩

/-- pandas `df.empty`: some axis has length zero. -/
def RawFrame.isEmpty (f : RawFrame) : Bool := f.rows.isEmpty || f.cols.isEmpty

/-- Python `dict` assignment: overwrite in place when the key exists,
append otherwise. -/
def dictUpsert (d : List (Cell × Cell)) (k v : Cell) : List (Cell × Cell) :=
  if d.any (fun q => q.1 == k) then d.map (fun q => if q.1 == k then (k, v) else q)
  else d ++ [(k, v)]

/-- Python `dict(pairs)`: insert the pairs left to right. -/
def dictOfPairs (l : List (Cell × Cell)) : List (Cell × Cell) :=
  l.foldl (fun d q => dictUpsert d q.1 q.2) []

/-- The pdfplumber loop body of `extract_data_from_pdf` for one page:
`None` and empty tables contribute nothing; otherwise the stripped first row
is the header and each later row whose cell count equals the header's becomes
`dict(zip(header, row))`. -/
def plumberPageRecords : Option PTable → List (List (Cell × Cell))
  | none => []
  | some [] => []
  | some (h :: rest) =>
      rest.filterMap (fun row =>
        if (row.map stripCell).length = (h.map stripCell).length then
          some (dictOfPairs ((h.map stripCell).zip (row.map stripCell)))
        else none)

/-- All records accumulated by the pdfplumber loop over the document pages. -/
def plumberRecords (pages : List (Option PTable)) : List (List (Cell × Cell)) :=
  pages.flatMap plumberPageRecords

/-- `pd.DataFrame(records)` for a list of dicts: columns in order of first
appearance, a missing key giving `NaN`. -/
def frameOfRecords (recs : List (List (Cell × Cell))) : RawFrame :=
  let cols := recs.foldl (fun acc r => acc ++ (r.map Prod.fst).filter (fun k => !(acc.contains k))) []
  ⟨cols, recs.map (fun r => cols.map (fun c => ((r.find? (fun q => q.1 == c)).map Prod.snd).getD none))⟩

/-- One camelot `table.df`: a rectangular grid of strings. -/
abbrev CamelotTable := List (List String)

/-- What `camelot.read_pdf` delivered: an exception, or a list of tables. -/
inductive CamelotOutcome where
  | error
  | tables (ts : List CamelotTable)

/-- Pad a string row to width `w` with `NaN` cells (the effect of
`pd.concat` on frames of differing widths). -/
def padTo (w : Nat) (row : List String) : List Cell :=
  row.map some ++ List.replicate (w - row.length) none

/-- The widest row among all detected tables. -/
def camelotMaxWidth (ts : List CamelotTable) : Nat :=
  (ts.flatMap id).foldl (fun a r => max a r.length) 0

/-- `pd.concat([t.df for t in tables], ignore_index=True)`: all rows in table
order, each padded to the full width. -/
def camelotConcat (ts : List CamelotTable) : List (List Cell) :=
  (ts.flatMap id).map (padTo (camelotMaxWidth ts))

/-- `extract_data_from_pdf_camelot` from `app.py`: an exception or zero
detected tables give an empty dataframe; otherwise the tables are
concatenated and the first row of the concatenation becomes the header.
(camelot guarantees every detected table has at least one row, so the
empty-concatenation branch, which would raise `IndexError` in Python,
is unreachable on real camelot output.) -/
def extract_data_from_pdf_camelot : CamelotOutcome → RawFrame
  | .error => emptyRawFrame
  | .tables ts =>
      if ts.isEmpty then emptyRawFrame
      else
        match camelotConcat ts with
        | [] => emptyRawFrame
        | h :: rest => ⟨h, rest⟩

/-- `extract_data_from_pdf` from `app.py`: try camelot; when its dataframe is
empty, fall back to the pdfplumber loop and return that result instead. -/
def extract_data_from_pdf (cam : CamelotOutcome) (pages : List (Option PTable)) : RawFrame :=
  let df := extract_data_from_pdf_camelot cam
  if df.isEmpty then frameOfRecords (plumberRecords pages) else df

/-- Swap the previous- and current-department fields of a transfer record. -/
def swapRecord : List Cell → List Cell
  | [n, p, c] => [n, c, p]
  | r => r

/-! ## Helper lemmas -/

theorem le_foldl_maxWidth (rs : List (List String)) (a : Nat) :
    a ≤ rs.foldl (fun x r => max x r.length) a := by
  induction rs generalizing a with
  | nil => exact Nat.le_refl a
  | cons r rs ih => exact Nat.le_trans (Nat.le_max_left a r.length) (ih (max a r.length))

theorem mem_le_foldl_maxWidth (rs : List (List String)) (a : Nat) (r : List String)
    (hr : r ∈ rs) : r.length ≤ rs.foldl (fun x r => max x r.length) a := by
  induction rs generalizing a with
  | nil => cases hr
  | cons r0 rs ih =>
      rcases List.mem_cons.mp hr with h | h
      · subst h
        exact Nat.le_trans (Nat.le_max_right a r.length) (le_foldl_maxWidth rs (max a r.length))
      · exact ih (max a r0.length) h

theorem length_padTo (w : Nat) (row : List String) (h : row.length ≤ w) :
    (padTo w row).length = w := by
  simp [padTo]
  omega

theorem camelotConcat_uniform (ts : List CamelotTable) (row : List Cell)
    (h : row ∈ camelotConcat ts) : row.length = camelotMaxWidth ts := by
  simp only [camelotConcat, List.mem_map] at h
  obtain ⟨r, hr, hrow⟩ := h
  subst hrow
  exact length_padTo _ _ (mem_le_foldl_maxWidth _ 0 r hr)

/-! ## C3 -/

/-- **C3, counterexample.** The claim asserts that every extraction strategy
drops data rows whose cell count differs from the header's.  The camelot
strategy does not: with a four-column first table and a three-cell row in a
second table, the three-cell row `["x","y","z"]` survives (padded with a
`NaN` cell) as a record under the four-entry header, instead of being
dropped. -/
theorem c3_counterexample :
    [some "x", some "y", some "z", none] ∈
      (extract_data_from_pdf_camelot (CamelotOutcome.tables
        [[["h1", "h2", "h3", "h4"], ["a", "b", "c", "d"]], [["x", "y", "z"]]])).rows ∧
    (extract_data_from_pdf_camelot (CamelotOutcome.tables
        [[["h1", "h2", "h3", "h4"], ["a", "b", "c", "d"]], [["x", "y", "z"]]])).cols.length = 4 := by
  decide

/-- **C3, amended.** In the pdfplumber strategy a data row becomes a record
exactly when its cell count equals its own table's header count, so the
record count of a table equals the number of matching rows; the camelot
strategy performs no such check — every concatenated row is padded to the
full width and retained, so each output row has exactly as many cells as the
header. -/
theorem c3_mismatched_rows_amended :
    (∀ (h : List Cell) (rest : List (List Cell)),
      (plumberPageRecords (some (h :: rest))).length
        = (rest.filter (fun row => row.length == h.length)).length) ∧
    (∀ (ts : List CamelotTable) (row : List Cell),
      row ∈ (extract_data_from_pdf_camelot (CamelotOutcome.tables ts)).rows →
      row.length = (extract_data_from_pdf_camelot (CamelotOutcome.tables ts)).cols.length) := by
  constructor
  · intro h rest
    induction rest with
    | nil => rfl
    | cons row rest ih =>
        simp only [plumberPageRecords, List.length_map] at ih ⊢
        by_cases hc : row.length = h.length
        · rw [List.filterMap_cons, if_pos hc, List.filter_cons]
          simp [hc, ih]
        · rw [List.filterMap_cons, if_neg hc, List.filter_cons]
          simp [hc, ih]
  · intro ts row hrow
    unfold extract_data_from_pdf_camelot at hrow ⊢
    by_cases hts : ts.isEmpty
    · simp [hts, emptyRawFrame] at hrow
    · simp only [hts, if_neg, Bool.false_eq_true, not_false_eq_true] at hrow ⊢
      rcases hcc : camelotConcat ts with _ | ⟨h, rest⟩
      · simp [hcc, emptyRawFrame] at hrow
      · simp only [hcc] at hrow ⊢
        have h1 : row ∈ camelotConcat ts := by
          rw [hcc]; exact List.mem_cons_of_mem _ hrow
        have h2 : h ∈ camelotConcat ts := by
          rw [hcc]; exact List.mem_cons_self _ _
        rw [camelotConcat_uniform ts row h1, camelotConcat_uniform ts h h2]

/-- Witness for the amended C3: the camelot conjunct applied to the
counterexample tables and the padded row. -/
theorem c3_witness :
    ([some "x", some "y", some "z", none] : List Cell).length =
      (extract_data_from_pdf_camelot (CamelotOutcome.tables
        [[["h1", "h2", "h3", "h4"], ["a", "b", "c", "d"]], [["x", "y", "z"]]])).cols.length :=
  c3_mismatched_rows_amended.2
    [[["h1", "h2", "h3", "h4"], ["a", "b", "c", "d"]], [["x", "y", "z"]]]
    [some "x", some "y", some "z", none] (by decide)

/-! ## C5 -/

/-- **C5.** When the department column 課名 is absent,
`transform_extracted_data` shows the schema error message and returns the
empty dataframe, and when 課名 is present no such message is shown — so a
caller can distinguish the error from a successful result with no
employees by the error channel. -/
theorem c5_invalid_schema (df : Frame) :
    ("課名" ∉ df.cols →
      (transform_extracted_data df).errorMsg =
        some "抽出されたデータに『課名』カラムが見つかりませんでした。抽出処理を確認してください。" ∧
      (transform_extracted_data df).result = some emptyFrame) ∧
    ("課名" ∈ df.cols → (transform_extracted_data df).errorMsg = none) := by
  constructor
  · intro h
    simp [transform_extracted_data, h]
  · intro h
    unfold transform_extracted_data
    rw [if_pos h]
    by_cases hb : roles.all (fun role => df.cols.contains role) = true
    · rw [if_pos hb]
    · rw [if_neg hb]

/-- Witness for C5 at concrete tables with and without 課名. -/
theorem c5_witness :
    (transform_extracted_data ⟨["部署"], []⟩).errorMsg =
      some "抽出されたデータに『課名』カラムが見つかりませんでした。抽出処理を確認してください。" ∧
    (transform_extracted_data ⟨["部署"], []⟩).result = some emptyFrame ∧
    (transform_extracted_data ⟨["課名"], []⟩).errorMsg = none :=
  ⟨((c5_invalid_schema ⟨["部署"], []⟩).1 (by decide)).1,
   ((c5_invalid_schema ⟨["部署"], []⟩).1 (by decide)).2,
   (c5_invalid_schema ⟨["課名"], []⟩).2 (by decide)⟩

/-! ## C10 -/

/-- **C10.** A table that has 課名 but lacks one of the eight configured
title columns makes the melt raise (no dataframe is produced and no handled
error message is shown), rather than skipping the missing title columns. -/
theorem c10_missing_role_raises (df : Frame) (hd : "課名" ∈ df.cols)
    (hr : ∃ role ∈ roles, role ∉ df.cols) :
    (transform_extracted_data df).result = none ∧
    (transform_extracted_data df).errorMsg = none := by
  obtain ⟨role, hrole, hnotin⟩ := hr
  have hall : ¬ (roles.all (fun role => df.cols.contains role) = true) := by
    intro hAll
    rw [List.all_eq_true] at hAll
    exact hnotin (by simpa using hAll role hrole)
  unfold transform_extracted_data
  rw [if_pos hd, if_neg hall]
  exact ⟨rfl, rfl⟩

/-- Witness for C10: a table with only the 課名 column. -/
theorem c10_witness :
    (transform_extracted_data ⟨["課名"], []⟩).result = none ∧
    (transform_extracted_data ⟨["課名"], []⟩).errorMsg = none :=
  c10_missing_role_raises ⟨["課名"], []⟩ (by decide) ⟨"部長", by decide, by decide⟩

/-! ## C4 -/

theorem keepName_eq_not_blank (row : List Cell) :
    keepName row = !cellBlank (row.getD 2 none) := by
  unfold keepName cellBlank
  rcases row.getD 2 none with _ | s <;> simp [bne]

/-- **C4.** Whenever `transform_extracted_data` produces a dataframe, every
entry of it carries a non-empty employee name after trimming, and for any
(row, title-column) pair whose cell is missing, empty or all-whitespace the
corresponding melted record is not in the output. -/
theorem c4_nonempty_names (df f : Frame) (h : (transform_extracted_data df).result = some f) :
    (∀ rec ∈ f.rows, ∃ s : String, rec.getD 2 none = some s ∧ pyStrip s ≠ "") ∧
    (∀ role ∈ roles, ∀ row ∈ df.rows, cellBlank (lookupRow df.cols row role) = true →
      [lookupRow df.cols row "課名", some role, lookupRow df.cols row role] ∉ f.rows) := by
  have hkeep : ∀ rec ∈ f.rows, keepName rec = true := by
    intro rec hrec
    unfold transform_extracted_data at h
    by_cases hd : "課名" ∈ df.cols
    · rw [if_pos hd] at h
      by_cases hb : roles.all (fun role => df.cols.contains role) = true
      · rw [if_pos hb] at h
        have hf := Option.some.inj h
        rw [← hf] at hrec
        exact List.of_mem_filter hrec
      · rw [if_neg hb] at h
        exact absurd h (by simp)
    · rw [if_neg hd] at h
      have hf := Option.some.inj h
      rw [← hf] at hrec
      cases hrec
  constructor
  · intro rec hrec
    have hk := hkeep rec hrec
    rw [keepName_eq_not_blank] at hk
    rcases hcell : rec.getD 2 none with _ | s
    · rw [hcell] at hk
      cases hk
    · rw [hcell] at hk
      refine ⟨s, rfl, ?_⟩
      intro hs
      rw [show cellBlank (some s) = (pyStrip s == "") from rfl, hs] at hk
      cases hk
  · intro role hrole row hrow hblank hmem
    have hk := hkeep _ hmem
    rw [keepName_eq_not_blank] at hk
    have hget : ([lookupRow df.cols row "課名", some role, lookupRow df.cols row role] : List Cell).getD 2 none
        = lookupRow df.cols row role := rfl
    rw [hget, hblank] at hk
    cases hk

/-- Witness for C4: Scenario C with the configured title columns — a row
whose 部長 cell is blank and whose 職員 cell is `"Kato"`. -/
theorem c4_witness :
    (∀ rec ∈ (Frame.mk ["課名", "役職", "氏名"] [[some "Sales", some "職員", some "Kato"]]).rows,
      ∃ s : String, rec.getD 2 none = some s ∧ pyStrip s ≠ "") ∧
    (∀ role ∈ roles, ∀ row ∈ (Frame.mk
        ["課名", "部長", "課長・主幹", "課長補佐", "係長・相当職", "職員", "単労職", "会計年度職員", "臨時職員"]
        [[some "Sales", some "", some "", some "", some "", some "Kato", some "", some "", some ""]]).rows,
      cellBlank (lookupRow ["課名", "部長", "課長・主幹", "課長補佐", "係長・相当職", "職員", "単労職", "会計年度職員", "臨時職員"] row role) = true →
      [lookupRow ["課名", "部長", "課長・主幹", "課長補佐", "係長・相当職", "職員", "単労職", "会計年度職員", "臨時職員"] row "課名", some role,
       lookupRow ["課名", "部長", "課長・主幹", "課長補佐", "係長・相当職", "職員", "単労職", "会計年度職員", "臨時職員"] row role] ∉
        (Frame.mk ["課名", "役職", "氏名"] [[some "Sales", some "職員", some "Kato"]]).rows) :=
  c4_nonempty_names
    (Frame.mk
      ["課名", "部長", "課長・主幹", "課長補佐", "係長・相当職", "職員", "単労職", "会計年度職員", "臨時職員"]
      [[some "Sales", some "", some "", some "", some "", some "Kato", some "", some "", some ""]])
    (Frame.mk ["課名", "役職", "氏名"] [[some "Sales", some "職員", some "Kato"]])
    (by decide)

/-! ## C6 -/

/-- **C6, counterexample.** With two camelot tables, the concatenate-first
policy makes the second table's header row `["C","D"]` appear as a data row
of the combined output, and the second table's data row `["c1","d1"]` is
interpreted under the first table's header `["A","B"]` — contradicting the
claim that each table's first row serves as header for that table only. -/
theorem c6_counterexample :
    (extract_data_from_pdf_camelot (CamelotOutcome.tables
      [[["A", "B"], ["a1", "b1"]], [["C", "D"], ["c1", "d1"]]])).cols = [some "A", some "B"] ∧
    [some "C", some "D"] ∈ (extract_data_from_pdf_camelot (CamelotOutcome.tables
      [[["A", "B"], ["a1", "b1"]], [["C", "D"], ["c1", "d1"]]])).rows ∧
    [some "c1", some "d1"] ∈ (extract_data_from_pdf_camelot (CamelotOutcome.tables
      [[["A", "B"], ["a1", "b1"]], [["C", "D"], ["c1", "d1"]]])).rows := by
  decide

/-- **C6, amended.** The per-table header policy holds for the pdfplumber
strategy: pages are processed independently (record lists concatenate), and
every record of a page is built by zipping that page's own stripped header
with one of that page's later rows.  The camelot strategy instead reheaders
the concatenation, so later tables' first rows survive as data rows (see the
counterexample). -/
theorem c6_per_table_header_amended :
    (∀ ps qs : List (Option PTable),
      plumberRecords (ps ++ qs) = plumberRecords ps ++ plumberRecords qs) ∧
    (∀ (h : List Cell) (rest : List (List Cell)) (rec : List (Cell × Cell)),
      rec ∈ plumberPageRecords (some (h :: rest)) →
      ∃ row ∈ rest, (row.map stripCell).length = (h.map stripCell).length ∧
        rec = dictOfPairs ((h.map stripCell).zip (row.map stripCell))) := by
  constructor
  · intro ps qs
    unfold plumberRecords
    exact List.flatMap_append ps qs _
  · intro h rest rec hrec
    unfold plumberPageRecords at hrec
    rw [List.mem_filterMap] at hrec
    obtain ⟨row, hrow, heq⟩ := hrec
    by_cases hc : (row.map stripCell).length = (h.map stripCell).length
    · rw [if_pos hc] at heq
      exact ⟨row, hrow, hc, (Option.some.inj heq).symm⟩
    · rw [if_neg hc] at heq
      cases heq

/-- Witness for the amended C6 at a one-page table. -/
theorem c6_witness :
    ∃ row ∈ ([[some "v1", some "v2"]] : List (List Cell)),
      (row.map stripCell).length = (([some "A", some "B"] : List Cell).map stripCell).length ∧
      ([(some "A", some "v1"), (some "B", some "v2")] : List (Cell × Cell)) =
        dictOfPairs ((([some "A", some "B"] : List Cell).map stripCell).zip (row.map stripCell)) :=
  c6_per_table_header_amended.2 [some "A", some "B"] [[some "v1", some "v2"]]
    [(some "A", some "v1"), (some "B", some "v2")] (by decide)

/-! ## C7 -/

/-- **C7.** A camelot exception or zero detected tables contribute an empty
dataframe rather than propagating; the pdfplumber strategy is attempted
exactly when the camelot dataframe is empty, and in that case its result is
returned, while a non-empty camelot dataframe is returned as is. -/
theorem c7_fallback_policy (cam : CamelotOutcome) (pages : List (Option PTable)) :
    extract_data_from_pdf_camelot CamelotOutcome.error = emptyRawFrame ∧
    extract_data_from_pdf_camelot (CamelotOutcome.tables []) = emptyRawFrame ∧
    ((extract_data_from_pdf_camelot cam).isEmpty = false →
      extract_data_from_pdf cam pages = extract_data_from_pdf_camelot cam) ∧
    ((extract_data_from_pdf_camelot cam).isEmpty = true →
      extract_data_from_pdf cam pages = frameOfRecords (plumberRecords pages)) := by
  refine ⟨rfl, rfl, ?_, ?_⟩
  · intro hne
    show (if (extract_data_from_pdf_camelot cam).isEmpty then frameOfRecords (plumberRecords pages)
      else extract_data_from_pdf_camelot cam) = extract_data_from_pdf_camelot cam
    rw [hne]
    simp
  · intro he
    show (if (extract_data_from_pdf_camelot cam).isEmpty then frameOfRecords (plumberRecords pages)
      else extract_data_from_pdf_camelot cam) = frameOfRecords (plumberRecords pages)
    rw [he]
    simp

/-- Witness for C7: the throwing camelot outcome falls back to pdfplumber,
and a non-empty camelot result is returned without attempting pdfplumber. -/
theorem c7_witness :
    (extract_data_from_pdf_camelot CamelotOutcome.error).isEmpty = true ∧
    extract_data_from_pdf CamelotOutcome.error [some [[some "h"], [some "v"]]] =
      frameOfRecords (plumberRecords [some [[some "h"], [some "v"]]]) ∧
    (extract_data_from_pdf_camelot (CamelotOutcome.tables [[["A"], ["a"]]])).isEmpty = false ∧
    extract_data_from_pdf (CamelotOutcome.tables [[["A"], ["a"]]]) [] =
      extract_data_from_pdf_camelot (CamelotOutcome.tables [[["A"], ["a"]]]) :=
  ⟨by decide,
   (c7_fallback_policy CamelotOutcome.error [some [[some "h"], [some "v"]]]).2.2.2 (by decide),
   by decide,
   (c7_fallback_policy (CamelotOutcome.tables [[["A"], ["a"]]]) []).2.2.1 (by decide)⟩

/-! ## String and list helpers for the merge lemmas -/

theorem string_data_append (a b : String) : (a ++ b).data = a.data ++ b.data := by
  rcases a with ⟨da⟩
  rcases b with ⟨db⟩
  rfl

theorem string_eq_of_data {a b : String} (h : a.data = b.data) : a = b := by
  rcases a with ⟨da⟩
  rcases b with ⟨db⟩
  exact congrArg String.mk h

theorem string_append_cancel {a b c : String} (h : a ++ c = b ++ c) : a = b := by
  apply string_eq_of_data
  have hd := congrArg String.data h
  rw [string_data_append, string_data_append] at hd
  exact List.append_cancel_right hd

theorem append_prev_eq_kname {c : String} (h : c ++ "_prev" = "課名_prev") : c = "課名" := by
  have h2 : c ++ "_prev" = "課名" ++ "_prev" := by
    rw [h]
    decide
  exact string_append_cancel h2

theorem append_curr_eq_kname {c : String} (h : c ++ "_curr" = "課名_curr") : c = "課名" := by
  have h2 : c ++ "_curr" = "課名" ++ "_curr" := by
    rw [h]
    decide
  exact string_append_cancel h2

theorem append_prev_ne_kname_curr (c : String) : c ++ "_prev" ≠ "課名_curr" := by
  intro h
  have hd : ((c ++ "_prev" : String).data).getLast? = (("課名_curr" : String).data).getLast? := by
    rw [h]
  rw [string_data_append, List.getLast?_append] at hd
  have e1 : (("_prev" : String).data).getLast? = some 'v' := by decide
  have e2 : (("課名_curr" : String).data).getLast? = some 'r' := by decide
  rw [e1, e2] at hd
  cases hd

theorem append_curr_ne_kname_prev (c : String) : c ++ "_curr" ≠ "課名_prev" := by
  intro h
  have hd : ((c ++ "_curr" : String).data).getLast? = (("課名_prev" : String).data).getLast? := by
    rw [h]
  rw [string_data_append, List.getLast?_append] at hd
  have e1 : (("_curr" : String).data).getLast? = some 'r' := by decide
  have e2 : (("課名_prev" : String).data).getLast? = some 'v' := by decide
  rw [e1, e2] at hd
  cases hd

theorem append_prev_ne_name (c : String) : c ++ "_prev" ≠ "氏名" := by
  intro h
  have hl := congrArg String.length h
  rw [String.length_append] at hl
  have e1 : ("_prev" : String).length = 5 := by decide
  have e2 : ("氏名" : String).length = 2 := by decide
  rw [e1, e2] at hl
  omega

theorem append_curr_ne_name (c : String) : c ++ "_curr" ≠ "氏名" := by
  intro h
  have hl := congrArg String.length h
  rw [String.length_append] at hl
  have e1 : ("_curr" : String).length = 5 := by decide
  have e2 : ("氏名" : String).length = 2 := by decide
  rw [e1, e2] at hl
  omega

theorem find?_congr_mem {α : Type} {p q : α → Bool} (l : List α) (h : ∀ a ∈ l, p a = q a) :
    l.find? p = l.find? q := by
  induction l with
  | nil => rfl
  | cons a l ih =>
      have ha := h a (List.mem_cons_self a l)
      cases hq : q a with
      | false =>
          rw [List.find?_cons_of_neg _ (by rw [ha, hq]; exact Bool.false_ne_true),
            List.find?_cons_of_neg _ (by rw [hq]; exact Bool.false_ne_true)]
          exact ih (fun x hx => h x (List.mem_cons_of_mem a hx))
      | true =>
          rw [List.find?_cons_of_pos _ (by rw [ha, hq]), List.find?_cons_of_pos _ hq]

theorem find?_zip_isSome {β : Type} (cols : List String) (row : List β) (c : String)
    (hlen : row.length = cols.length) (hc : c ∈ cols) :
    ((cols.zip row).find? (fun q => q.1 == c)).isSome = true := by
  induction cols generalizing row with
  | nil => cases hc
  | cons c0 cols ih =>
      rcases row with _ | ⟨v, row⟩
      · simp at hlen
      · rw [List.zip_cons_cons]
        by_cases he : c0 = c
        · rw [List.find?_cons_of_pos _ (by simpa using he)]
          rfl
        · rw [List.find?_cons_of_neg _ (by simpa using he)]
          rcases List.mem_cons.mp hc with h | h
          · exact absurd h.symm he
          · exact ih row (by simpa using hlen) h

theorem find?_filter_of_imp {α : Type} (p q : α → Bool) (l : List α)
    (himp : ∀ a, p a = true → q a = true) :
    (l.filter q).find? p = l.find? p := by
  induction l with
  | nil => rfl
  | cons a l ih =>
      rw [List.filter_cons]
      cases hq : q a with
      | false =>
          have hp : p a = false := by
            cases hpa : p a
            · rfl
            · rw [himp a hpa] at hq
              cases hq
          rw [if_neg (by simp [hq]), ih, List.find?_cons_of_neg _ (by simp [hp])]
      | true =>
          rw [if_pos (by simp [hq])]
          cases hpa : p a with
          | false =>
              rw [List.find?_cons_of_neg _ (by simp [hpa]),
                List.find?_cons_of_neg _ (by simp [hpa])]
              exact ih
          | true =>
              rw [List.find?_cons_of_pos _ hpa, List.find?_cons_of_pos _ hpa]

theorem zip_filter_map_snd {α β : Type} (p : α → Bool) (f : α → α) (cols : List α)
    (row : List β) (hlen : row.length = cols.length) :
    ((cols.filter p).map f).zip (((cols.zip row).filter (fun q => p q.1)).map Prod.snd)
      = ((cols.zip row).filter (fun q => p q.1)).map (fun q => (f q.1, q.2)) := by
  induction cols generalizing row with
  | nil => rfl
  | cons c cols ih =>
      rcases row with _ | ⟨v, row⟩
      · simp at hlen
      · rw [List.zip_cons_cons, List.filter_cons, List.filter_cons]
        cases hp : p c with
        | false =>
            rw [if_neg (by simp [hp]), if_neg (by simp [hp])]
            exact ih row (by simpa using hlen)
        | true =>
            rw [if_pos (by simp [hp]), if_pos (by simp [hp])]
            rw [List.map_cons, List.map_cons, List.map_cons, List.zip_cons_cons]
            rw [ih row (by simpa using hlen)]

theorem lookup_mapped_append_left (fL : String → String) (rest : List String)
    (lcols : List String) (lrow tail : List Cell) (t c0 : String)
    (hlen : lrow.length = lcols.length)
    (hcong : ∀ c ∈ lcols, (fL c == t) = (c == c0))
    (hc0 : c0 ∈ lcols) :
    lookupRow (lcols.map fL ++ rest) (lrow ++ tail) t = lookupRow lcols lrow c0 := by
  unfold lookupRow
  rw [List.zip_append (by rw [List.length_map]; exact hlen.symm)]
  rw [List.find?_append, List.zip_map_left, List.find?_map]
  have hcong2 : ∀ q ∈ lcols.zip lrow,
      ((fun q : String × Cell => q.1 == t) ∘ Prod.map fL id) q
        = (fun q : String × Cell => q.1 == c0) q := by
    intro q hq
    have hq1 : q.1 ∈ lcols := (List.of_mem_zip hq).1
    simpa using hcong q.1 hq1
  rw [find?_congr_mem _ hcong2]
  have hsome := find?_zip_isSome lcols lrow c0 hlen hc0
  obtain ⟨x, hx⟩ := Option.isSome_iff_exists.mp hsome
  rw [hx]
  rfl

theorem lookup_merged_right (fL fR : String → String) (lcols rcols : List String)
    (lrow rrow : List Cell) (t c0 key : String)
    (hllen : lrow.length = lcols.length) (hrlen : rrow.length = rcols.length)
    (hleftnone : ∀ c ∈ lcols, (fL c == t) = false)
    (hcong : ∀ c ∈ rcols, (fR c == t) = (c == c0))
    (himp : ∀ c : String, (c == c0) = true → (c != key) = true) :
    lookupRow (lcols.map fL ++ (rcols.filter (fun c => c != key)).map fR)
        (lrow ++ ((rcols.zip rrow).filter (fun q => q.1 != key)).map Prod.snd) t
      = lookupRow rcols rrow c0 := by
  unfold lookupRow
  rw [List.zip_append (by rw [List.length_map]; exact hllen.symm)]
  rw [List.find?_append]
  have hnone : (((lcols.map fL).zip lrow).find? (fun q => q.1 == t)) = none := by
    rw [List.find?_eq_none]
    intro q hq
    rw [List.zip_map_left] at hq
    obtain ⟨q0, hq0, rfl⟩ := List.mem_map.mp hq
    have h1 : q0.1 ∈ lcols := (List.of_mem_zip hq0).1
    simp [Prod.map, hleftnone q0.1 h1]
  rw [hnone, Option.none_or]
  rw [zip_filter_map_snd (fun c => c != key) fR rcols rrow hrlen]
  rw [List.find?_map]
  have hcong2 : ∀ q ∈ (rcols.zip rrow).filter (fun q => q.1 != key),
      ((fun q : String × Cell => q.1 == t) ∘ (fun q : String × Cell => (fR q.1, q.2))) q
        = (fun q : String × Cell => q.1 == c0) q := by
    intro q hq
    have hq1 : q.1 ∈ rcols := (List.of_mem_zip (List.mem_of_mem_filter hq)).1
    simpa using hcong q.1 hq1
  rw [find?_congr_mem _ hcong2]
  rw [find?_filter_of_imp _ _ _ (fun q hq => himp q.1 hq)]
  rw [Option.map_map]
  rfl

theorem congr_left_prev (rcols lcols : List String) (hrd : "課名" ∈ rcols)
    (hs1 : "課名_prev" ∉ lcols) :
    ∀ c ∈ lcols, (suffixIfOverlap rcols "氏名" "_prev" c == "課名_prev") = (c == "課名") := by
  intro c hc
  unfold suffixIfOverlap
  by_cases hck : c ≠ "氏名" ∧ c ∈ rcols
  · rw [if_pos hck]
    by_cases he : c = "課名"
    · subst he
      decide
    · rw [beq_eq_false_iff_ne.mpr (fun h => he (append_prev_eq_kname h)),
        beq_eq_false_iff_ne.mpr he]
  · rw [if_neg hck]
    have he : c ≠ "課名" := by
      intro h
      subst h
      exact hck ⟨by decide, hrd⟩
    rw [beq_eq_false_iff_ne.mpr (show c ≠ "課名_prev" by intro h; subst h; exact hs1 hc),
      beq_eq_false_iff_ne.mpr he]

theorem congr_left_key (rcols lcols : List String) :
    ∀ c ∈ lcols, (suffixIfOverlap rcols "氏名" "_prev" c == "氏名") = (c == "氏名") := by
  intro c _
  unfold suffixIfOverlap
  by_cases hck : c ≠ "氏名" ∧ c ∈ rcols
  · rw [if_pos hck]
    rw [beq_eq_false_iff_ne.mpr (append_prev_ne_name c), beq_eq_false_iff_ne.mpr hck.1]
  · rw [if_neg hck]

theorem left_none_curr (rcols lcols : List String) (hs2 : "課名_curr" ∉ lcols) :
    ∀ c ∈ lcols, (suffixIfOverlap rcols "氏名" "_prev" c == "課名_curr") = false := by
  intro c hc
  unfold suffixIfOverlap
  by_cases hck : c ≠ "氏名" ∧ c ∈ rcols
  · rw [if_pos hck, beq_eq_false_iff_ne]
    exact append_prev_ne_kname_curr c
  · rw [if_neg hck, beq_eq_false_iff_ne]
    exact fun h => hs2 (h ▸ hc)

theorem congr_right_curr (lcols rcols : List String) (hld : "課名" ∈ lcols)
    (hs4 : "課名_curr" ∉ rcols) :
    ∀ c ∈ rcols, (suffixIfOverlap lcols "氏名" "_curr" c == "課名_curr") = (c == "課名") := by
  intro c hc
  unfold suffixIfOverlap
  by_cases hck : c ≠ "氏名" ∧ c ∈ lcols
  · rw [if_pos hck]
    by_cases he : c = "課名"
    · subst he
      decide
    · rw [beq_eq_false_iff_ne.mpr (fun h => he (append_curr_eq_kname h)),
        beq_eq_false_iff_ne.mpr he]
  · rw [if_neg hck]
    have he : c ≠ "課名" := by
      intro h
      subst h
      exact hck ⟨by decide, hld⟩
    rw [beq_eq_false_iff_ne.mpr (show c ≠ "課名_curr" by intro h; subst h; exact hs4 hc),
      beq_eq_false_iff_ne.mpr he]

theorem merged_lookup_prev (l r : Frame) (lp tail : List Cell)
    (hlen : lp.length = l.cols.length) (hld : "課名" ∈ l.cols) (hrd : "課名" ∈ r.cols)
    (hs1 : "課名_prev" ∉ l.cols) :
    lookupRow (mergeOn l r "氏名" "_prev" "_curr").cols (lp ++ tail) "課名_prev"
      = lookupRow l.cols lp "課名" :=
  lookup_mapped_append_left _ _ l.cols lp tail _ _ hlen
    (congr_left_prev r.cols l.cols hrd hs1) hld

theorem merged_lookup_key (l r : Frame) (lp tail : List Cell)
    (hlen : lp.length = l.cols.length) (hlk : "氏名" ∈ l.cols) :
    lookupRow (mergeOn l r "氏名" "_prev" "_curr").cols (lp ++ tail) "氏名"
      = lookupRow l.cols lp "氏名" :=
  lookup_mapped_append_left _ _ l.cols lp tail _ _ hlen
    (congr_left_key r.cols l.cols) hlk

theorem merged_lookup_curr (l r : Frame) (lp rp : List Cell)
    (hllen : lp.length = l.cols.length) (hrlen : rp.length = r.cols.length)
    (hld : "課名" ∈ l.cols) (hs2 : "課名_curr" ∉ l.cols) (hs4 : "課名_curr" ∉ r.cols) :
    lookupRow (mergeOn l r "氏名" "_prev" "_curr").cols
        (lp ++ ((r.cols.zip rp).filter (fun q => q.1 != "氏名")).map Prod.snd) "課名_curr"
      = lookupRow r.cols rp "課名" :=
  lookup_merged_right _ _ l.cols r.cols lp rp _ _ _ hllen hrlen
    (left_none_curr r.cols l.cols hs2) (congr_right_curr l.cols r.cols hld hs4)
    (fun c h => by
      have hc : c = "課名" := by simpa using h
      subst hc
      decide)

theorem mergeOn_cols_prev_mem (l r : Frame) (hld : "課名" ∈ l.cols) (hrd : "課名" ∈ r.cols) :
    "課名_prev" ∈ (mergeOn l r "氏名" "_prev" "_curr").cols := by
  apply List.mem_append_left
  apply List.mem_map.mpr
  refine ⟨"課名", hld, ?_⟩
  unfold suffixIfOverlap
  rw [if_pos ⟨by decide, hrd⟩]
  decide

theorem mergeOn_cols_curr_mem (l r : Frame) (hld : "課名" ∈ l.cols) (hrd : "課名" ∈ r.cols) :
    "課名_curr" ∈ (mergeOn l r "氏名" "_prev" "_curr").cols := by
  apply List.mem_append_right
  apply List.mem_map.mpr
  refine ⟨"課名", List.mem_filter.mpr ⟨hrd, by decide⟩, ?_⟩
  unfold suffixIfOverlap
  rw [if_pos ⟨by decide, hld⟩]
  decide

theorem mergeOn_mem_rows (l r : Frame) (row : List Cell) :
    row ∈ (mergeOn l r "氏名" "_prev" "_curr").rows ↔
    ∃ lp ∈ l.rows, ∃ rp ∈ r.rows,
      lookupRow l.cols lp "氏名" = lookupRow r.cols rp "氏名" ∧
      row = lp ++ ((r.cols.zip rp).filter (fun q => q.1 != "氏名")).map Prod.snd := by
  show row ∈ l.rows.flatMap _ ↔ _
  rw [List.mem_flatMap]
  constructor
  · rintro ⟨lp, hlp, hmem⟩
    rw [List.mem_filterMap] at hmem
    obtain ⟨rp, hrp, heq⟩ := hmem
    by_cases hkey : lookupRow l.cols lp "氏名" = lookupRow r.cols rp "氏名"
    · rw [if_pos hkey] at heq
      exact ⟨lp, hlp, rp, hrp, hkey, (Option.some.inj heq).symm⟩
    · rw [if_neg hkey] at heq
      cases heq
  · rintro ⟨lp, hlp, rp, hrp, hkey, hrow⟩
    refine ⟨lp, hlp, ?_⟩
    rw [List.mem_filterMap]
    exact ⟨rp, hrp, by rw [if_pos hkey, hrow]⟩

theorem track_transfers_eq (l r : Frame)
    (hlk : "氏名" ∈ l.cols) (hrk : "氏名" ∈ r.cols)
    (hld : "課名" ∈ l.cols) (hrd : "課名" ∈ r.cols) :
    track_transfers l r = ⟨none, ⟨["氏名", "課名_prev", "課名_curr"],
      ((mergeOn l r "氏名" "_prev" "_curr").rows.filter (fun row =>
          cellNe (lookupRow (mergeOn l r "氏名" "_prev" "_curr").cols row "課名_prev")
            (lookupRow (mergeOn l r "氏名" "_prev" "_curr").cols row "課名_curr"))).map
        (fun row =>
          [lookupRow (mergeOn l r "氏名" "_prev" "_curr").cols row "氏名",
           lookupRow (mergeOn l r "氏名" "_prev" "_curr").cols row "課名_prev",
           lookupRow (mergeOn l r "氏名" "_prev" "_curr").cols row "課名_curr"])⟩⟩ := by
  simp only [track_transfers]
  rw [if_pos ⟨hlk, hrk⟩,
    if_pos ⟨mergeOn_cols_prev_mem l r hld hrd, mergeOn_cols_curr_mem l r hld hrd⟩]

theorem track_transfers_mem (l r : Frame)
    (hlw : ∀ row ∈ l.rows, row.length = l.cols.length)
    (hrw : ∀ row ∈ r.rows, row.length = r.cols.length)
    (hlk : "氏名" ∈ l.cols) (hrk : "氏名" ∈ r.cols)
    (hld : "課名" ∈ l.cols) (hrd : "課名" ∈ r.cols)
    (hs1 : "課名_prev" ∉ l.cols) (hs2 : "課名_curr" ∉ l.cols)
    (hs4 : "課名_curr" ∉ r.cols) :
    (track_transfers l r).errorMsg = none ∧
    ∀ rec : List Cell, rec ∈ (track_transfers l r).frame.rows ↔
      ∃ lp ∈ l.rows, ∃ rp ∈ r.rows,
        lookupRow l.cols lp "氏名" = lookupRow r.cols rp "氏名" ∧
        cellNe (lookupRow l.cols lp "課名") (lookupRow r.cols rp "課名") = true ∧
        rec = [lookupRow l.cols lp "氏名", lookupRow l.cols lp "課名",
          lookupRow r.cols rp "課名"] := by
  rw [track_transfers_eq l r hlk hrk hld hrd]
  refine ⟨rfl, ?_⟩
  intro rec
  show rec ∈ List.map _ _ ↔ _
  rw [List.mem_map]
  constructor
  · rintro ⟨mrow, hm, hrec⟩
    rw [List.mem_filter] at hm
    obtain ⟨hmr, hg⟩ := hm
    rw [mergeOn_mem_rows] at hmr
    obtain ⟨lp, hlp, rp, hrp, hkey, rfl⟩ := hmr
    have e1 := merged_lookup_key l r lp
      (((r.cols.zip rp).filter (fun q => q.1 != "氏名")).map Prod.snd) (hlw lp hlp) hlk
    have e2 := merged_lookup_prev l r lp
      (((r.cols.zip rp).filter (fun q => q.1 != "氏名")).map Prod.snd) (hlw lp hlp) hld hrd hs1
    have e3 := merged_lookup_curr l r lp rp (hlw lp hlp) (hrw rp hrp) hld hs2 hs4
    rw [e2, e3] at hg
    refine ⟨lp, hlp, rp, hrp, hkey, hg, ?_⟩
    rw [← hrec, e1, e2, e3]
  · rintro ⟨lp, hlp, rp, hrp, hkey, hne, hrec⟩
    refine ⟨lp ++ ((r.cols.zip rp).filter (fun q => q.1 != "氏名")).map Prod.snd, ?_, ?_⟩
    · rw [List.mem_filter]
      constructor
      · rw [mergeOn_mem_rows]
        exact ⟨lp, hlp, rp, hrp, hkey, rfl⟩
      · rw [merged_lookup_prev l r lp
            (((r.cols.zip rp).filter (fun q => q.1 != "氏名")).map Prod.snd) (hlw lp hlp) hld hrd hs1,
          merged_lookup_curr l r lp rp (hlw lp hlp) (hrw rp hrp) hld hs2 hs4]
        exact hne
    · rw [merged_lookup_key l r lp
          (((r.cols.zip rp).filter (fun q => q.1 != "氏名")).map Prod.snd) (hlw lp hlp) hlk,
        merged_lookup_prev l r lp
          (((r.cols.zip rp).filter (fun q => q.1 != "氏名")).map Prod.snd) (hlw lp hlp) hld hrd hs1,
        merged_lookup_curr l r lp rp (hlw lp hlp) (hrw rp hrp) hld hs2 hs4]
      exact hrec.symm

/-! ## C1 -/

/-- **C1.** For tables that both carry 氏名 and 課名 (and no column spelled
like a merge-suffixed label), `track_transfers` succeeds and its records are
exactly the join combinations: identities equal on both sides with
string-unequal departments, reported as (identity, previous, current). -/
theorem c1_track_transfers_exact (prev curr : Frame)
    (hpw : ∀ row ∈ prev.rows, row.length = prev.cols.length)
    (hcw : ∀ row ∈ curr.rows, row.length = curr.cols.length)
    (hpk : "氏名" ∈ prev.cols) (hck : "氏名" ∈ curr.cols)
    (hpd : "課名" ∈ prev.cols) (hcd : "課名" ∈ curr.cols)
    (hs1 : "課名_prev" ∉ prev.cols) (hs2 : "課名_curr" ∉ prev.cols)
    (hs4 : "課名_curr" ∉ curr.cols)
    (hps : ∀ row ∈ prev.rows, (lookupRow prev.cols row "課名").isSome = true)
    (hcs : ∀ row ∈ curr.rows, (lookupRow curr.cols row "課名").isSome = true) :
    (track_transfers prev curr).errorMsg = none ∧
    ∀ rec : List Cell, rec ∈ (track_transfers prev curr).frame.rows ↔
      ∃ p ∈ prev.rows, ∃ c ∈ curr.rows,
        lookupRow prev.cols p "氏名" = lookupRow curr.cols c "氏名" ∧
        ∃ dp dc : String, lookupRow prev.cols p "課名" = some dp ∧
          lookupRow curr.cols c "課名" = some dc ∧ dp ≠ dc ∧
          rec = [lookupRow prev.cols p "氏名", some dp, some dc] := by
  obtain ⟨herr, hmem⟩ := track_transfers_mem prev curr hpw hcw hpk hck hpd hcd hs1 hs2 hs4
  refine ⟨herr, ?_⟩
  intro rec
  rw [hmem rec]
  constructor
  · rintro ⟨p, hp, c, hc, hkey, hne, hrec⟩
    obtain ⟨dp, hdp⟩ := Option.isSome_iff_exists.mp (hps p hp)
    obtain ⟨dc, hdc⟩ := Option.isSome_iff_exists.mp (hcs c hc)
    refine ⟨p, hp, c, hc, hkey, dp, dc, hdp, hdc, ?_, ?_⟩
    · rw [hdp, hdc] at hne
      simpa [cellNe] using hne
    · rw [hrec, hdp, hdc]
  · rintro ⟨p, hp, c, hc, hkey, dp, dc, hdp, hdc, hnedp, hrec⟩
    refine ⟨p, hp, c, hc, hkey, ?_, ?_⟩
    · rw [hdp, hdc]
      simpa [cellNe] using hnedp
    · rw [hrec, hdp, hdc]

/-- Witness for C1: Scenario A — Sato moves Finance → HR, Ito stays. -/
theorem c1_witness :
    [some "Sato", some "Finance", some "HR"] ∈
      (track_transfers
        (Frame.mk ["氏名", "課名"] [[some "Sato", some "Finance"], [some "Ito", some "Sales"]])
        (Frame.mk ["氏名", "課名"] [[some "Sato", some "HR"], [some "Ito", some "Sales"]])).frame.rows :=
  ((c1_track_transfers_exact
      (Frame.mk ["氏名", "課名"] [[some "Sato", some "Finance"], [some "Ito", some "Sales"]])
      (Frame.mk ["氏名", "課名"] [[some "Sato", some "HR"], [some "Ito", some "Sales"]])
      (by decide) (by decide) (by decide) (by decide) (by decide) (by decide) (by decide)
      (by decide) (by decide) (by decide) (by decide)).2
    [some "Sato", some "Finance", some "HR"]).mpr
    ⟨[some "Sato", some "Finance"], by decide, [some "Sato", some "HR"], by decide, by decide,
      "Finance", "HR", by decide, by decide, by decide, by decide⟩

/-! ## C2 -/

theorem mergeOn_cols_prev_mem_iff (l r : Frame)
    (hs1 : "課名_prev" ∉ l.cols) (hs3 : "課名_prev" ∉ r.cols) :
    "課名_prev" ∈ (mergeOn l r "氏名" "_prev" "_curr").cols ↔
      ("課名" ∈ l.cols ∧ "課名" ∈ r.cols) := by
  constructor
  · intro h
    rcases List.mem_append.mp h with h | h
    · obtain ⟨c, hc, he⟩ := List.mem_map.mp h
      unfold suffixIfOverlap at he
      by_cases hck : c ≠ "氏名" ∧ c ∈ r.cols
      · rw [if_pos hck] at he
        have hc2 := append_prev_eq_kname he
        subst hc2
        exact ⟨hc, hck.2⟩
      · rw [if_neg hck] at he
        subst he
        exact absurd hc hs1
    · obtain ⟨c, hc, he⟩ := List.mem_map.mp h
      have hc2 := List.mem_of_mem_filter hc
      unfold suffixIfOverlap at he
      by_cases hck : c ≠ "氏名" ∧ c ∈ l.cols
      · rw [if_pos hck] at he
        exact absurd he (append_curr_ne_kname_prev c)
      · rw [if_neg hck] at he
        subst he
        exact absurd hc2 hs3
  · intro h
    exact mergeOn_cols_prev_mem l r h.1 h.2

/-- **C2, counterexample.** 課名 is absent from BOTH tables, yet because the
left table carries a column literally named 課名_prev and the right one a
column literally named 課名_curr, the post-merge check finds both expected
labels: `track_transfers` shows no error and returns a non-empty record set
instead of signalling `MissingColumn` with zero records. -/
theorem c2_counterexample :
    "課名" ∉ (Frame.mk ["氏名", "課名_prev"] [[some "Sato", some "Finance"]]).cols ∧
    "課名" ∉ (Frame.mk ["氏名", "課名_curr"] [[some "Sato", some "HR"]]).cols ∧
    (track_transfers (Frame.mk ["氏名", "課名_prev"] [[some "Sato", some "Finance"]])
        (Frame.mk ["氏名", "課名_curr"] [[some "Sato", some "HR"]])).errorMsg = none ∧
    (track_transfers (Frame.mk ["氏名", "課名_prev"] [[some "Sato", some "Finance"]])
        (Frame.mk ["氏名", "課名_curr"] [[some "Sato", some "HR"]])).frame.rows =
      [[some "Sato", some "Finance", some "HR"]] := by
  decide

/-- **C2, amended.** Provided neither input table carries a column literally
named 課名_prev or 課名_curr, the absence of 氏名 or 課名 from either table
makes `track_transfers` show an error message and return the empty
dataframe. -/
theorem c2_missing_column_amended (prev curr : Frame)
    (hs1 : "課名_prev" ∉ prev.cols) (hs2 : "課名_curr" ∉ prev.cols)
    (hs3 : "課名_prev" ∉ curr.cols) (hs4 : "課名_curr" ∉ curr.cols)
    (hmiss : "氏名" ∉ prev.cols ∨ "氏名" ∉ curr.cols ∨
      "課名" ∉ prev.cols ∨ "課名" ∉ curr.cols) :
    (track_transfers prev curr).errorMsg.isSome = true ∧
    (track_transfers prev curr).frame = emptyFrame := by
  simp only [track_transfers]
  by_cases hk : "氏名" ∈ prev.cols ∧ "氏名" ∈ curr.cols
  · rw [if_pos hk]
    have hked : ¬ ("課名" ∈ prev.cols ∧ "課名" ∈ curr.cols) := by
      rcases hmiss with h | h | h | h
      · exact absurd hk.1 h
      · exact absurd hk.2 h
      · exact fun hc => h hc.1
      · exact fun hc => h hc.2
    have hcond : ¬ ("課名_prev" ∈ (mergeOn prev curr "氏名" "_prev" "_curr").cols ∧
        "課名_curr" ∈ (mergeOn prev curr "氏名" "_prev" "_curr").cols) := by
      intro hcond
      exact hked ((mergeOn_cols_prev_mem_iff prev curr hs1 hs3).mp hcond.1)
    rw [if_neg hcond]
    exact ⟨rfl, rfl⟩
  · rw [if_neg hk]
    exact ⟨rfl, rfl⟩

/-- Witness for the amended C2: 課名 missing from the previous table. -/
theorem c2_witness :
    (track_transfers (Frame.mk ["氏名"] [[some "Sato"]])
        (Frame.mk ["氏名", "課名"] [[some "Sato", some "HR"]])).errorMsg.isSome = true ∧
    (track_transfers (Frame.mk ["氏名"] [[some "Sato"]])
        (Frame.mk ["氏名", "課名"] [[some "Sato", some "HR"]])).frame = emptyFrame :=
  c2_missing_column_amended (Frame.mk ["氏名"] [[some "Sato"]])
    (Frame.mk ["氏名", "課名"] [[some "Sato", some "HR"]])
    (by decide) (by decide) (by decide) (by decide)
    (Or.inr (Or.inr (Or.inl (by decide))))

/-! ## C8 -/

theorem inner_filter_count (l r : Frame) (lp : List Cell) (n : String)
    (hlen : lp.length = l.cols.length) (hlk : "氏名" ∈ l.cols) (rrows : List (List Cell)) :
    ((rrows.filterMap (fun rp =>
        if lookupRow l.cols lp "氏名" = lookupRow r.cols rp "氏名" then
          some (lp ++ ((r.cols.zip rp).filter (fun q => q.1 != "氏名")).map Prod.snd)
        else none)).filter (fun row =>
          lookupRow (mergeOn l r "氏名" "_prev" "_curr").cols row "氏名" == some n)).length
      = if lookupRow l.cols lp "氏名" = some n
        then (rrows.filter (fun rp => lookupRow r.cols rp "氏名" == some n)).length
        else 0 := by
  induction rrows with
  | nil =>
      by_cases hn : lookupRow l.cols lp "氏名" = some n
      · rw [if_pos hn]
        rfl
      · rw [if_neg hn]
        rfl
  | cons rp rrows ih =>
      rw [List.filterMap_cons]
      by_cases hmatch : lookupRow l.cols lp "氏名" = lookupRow r.cols rp "氏名"
      · rw [if_pos hmatch, List.filter_cons]
        have hkeyrow := merged_lookup_key l r lp
          (((r.cols.zip rp).filter (fun q => q.1 != "氏名")).map Prod.snd) hlen hlk
        by_cases hn : lookupRow l.cols lp "氏名" = some n
        · rw [if_pos (by rw [hkeyrow, hn]; exact beq_self_eq_true (some n)),
            List.length_cons, ih, if_pos hn, if_pos hn, List.filter_cons,
            if_pos (by rw [← hmatch, hn]; exact beq_self_eq_true (some n)), List.length_cons]
        · rw [if_neg (by rw [hkeyrow]; simp [beq_iff_eq, hn]), ih, if_neg hn, if_neg hn]
      · rw [if_neg hmatch, ih]
        by_cases hn : lookupRow l.cols lp "氏名" = some n
        · have hrne : lookupRow r.cols rp "氏名" ≠ some n :=
            fun h => hmatch (hn.trans h.symm)
          rw [if_pos hn, if_pos hn, List.filter_cons, if_neg (by simp [beq_iff_eq, hrne])]
        · rw [if_neg hn, if_neg hn]

theorem merged_filter_count (l r : Frame) (n : String)
    (hlw : ∀ row ∈ l.rows, row.length = l.cols.length) (hlk : "氏名" ∈ l.cols) :
    (((mergeOn l r "氏名" "_prev" "_curr").rows).filter (fun row =>
        lookupRow (mergeOn l r "氏名" "_prev" "_curr").cols row "氏名" == some n)).length
      = (l.rows.filter (fun row => lookupRow l.cols row "氏名" == some n)).length *
        (r.rows.filter (fun row => lookupRow r.cols row "氏名" == some n)).length := by
  have main : ∀ lrows : List (List Cell), (∀ row ∈ lrows, row.length = l.cols.length) →
      ((lrows.flatMap (fun lp => r.rows.filterMap (fun rp =>
          if lookupRow l.cols lp "氏名" = lookupRow r.cols rp "氏名" then
            some (lp ++ ((r.cols.zip rp).filter (fun q => q.1 != "氏名")).map Prod.snd)
          else none))).filter (fun row =>
            lookupRow (mergeOn l r "氏名" "_prev" "_curr").cols row "氏名" == some n)).length
        = (lrows.filter (fun row => lookupRow l.cols row "氏名" == some n)).length *
          (r.rows.filter (fun row => lookupRow r.cols row "氏名" == some n)).length := by
    intro lrows
    induction lrows with
    | nil =>
        intro _
        simp
    | cons lp lrows ih =>
        intro hw
        rw [List.flatMap_cons, List.filter_append, List.length_append,
          inner_filter_count l r lp n (hw lp (List.mem_cons_self lp lrows)) hlk r.rows,
          ih (fun row hr => hw row (List.mem_cons_of_mem lp hr)), List.filter_cons]
        by_cases hn : lookupRow l.cols lp "氏名" = some n
        · rw [if_pos hn, if_pos (by rw [hn]; exact beq_self_eq_true (some n)), List.length_cons]
          ring
        · rw [if_neg hn, if_neg (by simp [beq_iff_eq, hn])]
          simp
  exact main l.rows hlw

/-- **C8.** When an identity `n` occurs `m` times in the previous table and
`k` times in the current table, the merge inside `track_transfers` carries
exactly `m * k` candidate rows for `n`, and every combination with differing
departments is reported as a record — no deduplication. -/
theorem c8_join_cartesian (prev curr : Frame) (n : String)
    (hpw : ∀ row ∈ prev.rows, row.length = prev.cols.length)
    (hcw : ∀ row ∈ curr.rows, row.length = curr.cols.length)
    (hpk : "氏名" ∈ prev.cols) (hck : "氏名" ∈ curr.cols)
    (hpd : "課名" ∈ prev.cols) (hcd : "課名" ∈ curr.cols)
    (hs1 : "課名_prev" ∉ prev.cols) (hs2 : "課名_curr" ∉ prev.cols)
    (hs4 : "課名_curr" ∉ curr.cols) :
    (((mergeOn prev curr "氏名" "_prev" "_curr").rows).filter (fun row =>
        lookupRow (mergeOn prev curr "氏名" "_prev" "_curr").cols row "氏名" == some n)).length
      = (prev.rows.filter (fun row => lookupRow prev.cols row "氏名" == some n)).length *
        (curr.rows.filter (fun row => lookupRow curr.cols row "氏名" == some n)).length ∧
    ∀ p ∈ prev.rows, ∀ c ∈ curr.rows,
      lookupRow prev.cols p "氏名" = some n → lookupRow curr.cols c "氏名" = some n →
      cellNe (lookupRow prev.cols p "課名") (lookupRow curr.cols c "課名") = true →
      [some n, lookupRow prev.cols p "課名", lookupRow curr.cols c "課名"]
        ∈ (track_transfers prev curr).frame.rows := by
  refine ⟨merged_filter_count prev curr n hpw hpk, ?_⟩
  intro p hp c hc hpn hcn hne
  obtain ⟨_, hmem⟩ := track_transfers_mem prev curr hpw hcw hpk hck hpd hcd hs1 hs2 hs4
  rw [hmem]
  exact ⟨p, hp, c, hc, by rw [hpn, hcn], hne, by rw [hpn]⟩

/-- Witness for C8: the identity Sato occurs twice in the previous table and
once in the current one; a differing combination is reported. -/
theorem c8_witness :
    [some "Sato", some "A", some "C"] ∈
      (track_transfers
        (Frame.mk ["氏名", "課名"] [[some "Sato", some "A"], [some "Sato", some "B"]])
        (Frame.mk ["氏名", "課名"] [[some "Sato", some "C"]])).frame.rows :=
  (c8_join_cartesian
      (Frame.mk ["氏名", "課名"] [[some "Sato", some "A"], [some "Sato", some "B"]])
      (Frame.mk ["氏名", "課名"] [[some "Sato", some "C"]]) "Sato"
      (by decide) (by decide) (by decide) (by decide) (by decide) (by decide) (by decide)
      (by decide) (by decide)).2
    [some "Sato", some "A"] (by decide) [some "Sato", some "C"] (by decide)
    (by decide) (by decide) (by decide)

/-! ## C9 -/

theorem cellNe_symm (a b : Cell) : cellNe a b = cellNe b a := by
  cases a with
  | none => cases b <;> rfl
  | some x =>
      cases b with
      | none => rfl
      | some y =>
          show (x != y) = (y != x)
          by_cases hxy : x = y
          · subst hxy
            rfl
          · rw [bne_iff_ne.mpr hxy, bne_iff_ne.mpr (Ne.symm hxy)]

/-- **C9.** Swapping the two input rosters yields the same records up to
swapping the previous/current department fields, and the same set of
reported identities. -/
theorem c9_diff_symmetry (prev curr : Frame)
    (hpw : ∀ row ∈ prev.rows, row.length = prev.cols.length)
    (hcw : ∀ row ∈ curr.rows, row.length = curr.cols.length)
    (hpk : "氏名" ∈ prev.cols) (hck : "氏名" ∈ curr.cols)
    (hpd : "課名" ∈ prev.cols) (hcd : "課名" ∈ curr.cols)
    (hs1 : "課名_prev" ∉ prev.cols) (hs2 : "課名_curr" ∉ prev.cols)
    (hs3 : "課名_prev" ∉ curr.cols) (hs4 : "課名_curr" ∉ curr.cols) :
    (∀ rec : List Cell, rec ∈ (track_transfers prev curr).frame.rows →
        swapRecord rec ∈ (track_transfers curr prev).frame.rows) ∧
    (∀ rec : List Cell, rec ∈ (track_transfers curr prev).frame.rows →
        swapRecord rec ∈ (track_transfers prev curr).frame.rows) ∧
    (∀ nm : Cell, (∃ rec ∈ (track_transfers prev curr).frame.rows, rec.getD 0 none = nm) ↔
        (∃ rec ∈ (track_transfers curr prev).frame.rows, rec.getD 0 none = nm)) := by
  obtain ⟨_, hmem1⟩ := track_transfers_mem prev curr hpw hcw hpk hck hpd hcd hs1 hs2 hs4
  obtain ⟨_, hmem2⟩ := track_transfers_mem curr prev hcw hpw hck hpk hcd hpd hs3 hs4 hs2
  have fwd : ∀ rec : List Cell, rec ∈ (track_transfers prev curr).frame.rows →
      swapRecord rec ∈ (track_transfers curr prev).frame.rows := by
    intro rec hrec
    rw [hmem1] at hrec
    obtain ⟨p, hp, c, hc, hkey, hne, rfl⟩ := hrec
    rw [hmem2]
    refine ⟨c, hc, p, hp, hkey.symm, by rw [cellNe_symm]; exact hne, ?_⟩
    simp only [swapRecord]
    rw [hkey]
  have bwd : ∀ rec : List Cell, rec ∈ (track_transfers curr prev).frame.rows →
      swapRecord rec ∈ (track_transfers prev curr).frame.rows := by
    intro rec hrec
    rw [hmem2] at hrec
    obtain ⟨c, hc, p, hp, hkey, hne, rfl⟩ := hrec
    rw [hmem1]
    refine ⟨p, hp, c, hc, hkey.symm, by rw [cellNe_symm]; exact hne, ?_⟩
    simp only [swapRecord]
    rw [hkey]
  refine ⟨fwd, bwd, ?_⟩
  intro nm
  constructor
  · rintro ⟨rec, hrec, hget⟩
    refine ⟨swapRecord rec, fwd rec hrec, ?_⟩
    rw [hmem1] at hrec
    obtain ⟨p, hp, c, hc, _, _, rfl⟩ := hrec
    simpa [swapRecord] using hget
  · rintro ⟨rec, hrec, hget⟩
    refine ⟨swapRecord rec, bwd rec hrec, ?_⟩
    rw [hmem2] at hrec
    obtain ⟨c, hc, p, hp, _, _, rfl⟩ := hrec
    simpa [swapRecord] using hget

/-- Witness for C9: Scenario A in both directions. -/
theorem c9_witness :
    swapRecord [some "Sato", some "Finance", some "HR"] ∈
      (track_transfers
        (Frame.mk ["氏名", "課名"] [[some "Sato", some "HR"], [some "Ito", some "Sales"]])
        (Frame.mk ["氏名", "課名"] [[some "Sato", some "Finance"], [some "Ito", some "Sales"]])).frame.rows :=
  (c9_diff_symmetry
      (Frame.mk ["氏名", "課名"] [[some "Sato", some "Finance"], [some "Ito", some "Sales"]])
      (Frame.mk ["氏名", "課名"] [[some "Sato", some "HR"], [some "Ito", some "Sales"]])
      (by decide) (by decide) (by decide) (by decide) (by decide) (by decide) (by decide)
      (by decide) (by decide) (by decide)).1
    [some "Sato", some "Finance", some "HR"] (by decide)
